import Mathlib

/-!
Shallow embedding of `app/tools/satellites.py` (DemonEditor): the HTML table
tokenizer callbacks of `SatellitesParser`, the two provider adapters, the two
transponder extractors and the fetch orchestration, modelled over explicit
state and an explicit network oracle.  Machinery that the module imports from
`app.eparser` (the `Transponder` record, `is_transponder_valid`, `PLS_MODE`)
is not part of the sources and is modelled from the spec where noted.

Python strings are modelled as Lean `String`s manipulated through explicit
ASCII-level helpers (Python's Unicode-aware classification of digits, letters
and whitespace is approximated by the ASCII classification; this is exact on
the ASCII data the parsers consume).  Fallible Python code is modelled with
`Option`: `none` is an exception escaping to the caller.
-/

namespace DemonEditor

/-- Value of a digit string, most significant digit first. -/
def digitsVal (cs : List Char) : Nat :=
  cs.foldl (fun a c => a * 10 + (c.toNat - 48)) 0

/-- Python whitespace (`\s`, `str.strip()`), ASCII part. -/
def pyIsSpace (c : Char) : Bool :=
  c = ' ' || c = '\t' || c = '\n' || c = '\r' || c = '\x0b' || c = '\x0c'

/-- Python `s.strip()` with no argument: drop whitespace on both ends. -/
def pyStrip (s : String) : String :=
  String.mk (((s.data.dropWhile pyIsSpace).reverse.dropWhile pyIsSpace).reverse)

/-- Python `int(s)` on a string: optional surrounding whitespace, optional
sign, at least one digit; `none` models the `ValueError` exception path. -/
def pyInt? (s : String) : Option Int :=
  match (pyStrip s).data with
  | '-' :: ds => if ds ≠ [] ∧ ds.all Char.isDigit then some (-(digitsVal ds : Int)) else none
  | '+' :: ds => if ds ≠ [] ∧ ds.all Char.isDigit then some ((digitsVal ds : Int)) else none
  | ds => if ds ≠ [] ∧ ds.all Char.isDigit then some ((digitsVal ds : Int)) else none

/-- Helper for `pySplit`; the fuel argument starts above the input length, so
the exhaustion arm is never reached for a non-empty separator. -/
def pySplitAux (sep : List Char) : Nat → List Char → List Char → List String
  | _, cur, [] => [String.mk cur.reverse]
  | 0, cur, rest => [String.mk (cur.reverse ++ rest)]
  | fuel + 1, cur, c :: cs =>
    if sep.isPrefixOf (c :: cs) then
      String.mk cur.reverse :: pySplitAux sep fuel [] ((c :: cs).drop sep.length)
    else
      pySplitAux sep fuel (c :: cur) cs

/-- Python `s.split(sep)` with an explicit non-empty separator: split at every
occurrence, keeping empty pieces (`"".split(" ") == [""]`). -/
def pySplit (s : String) (sep : String) : List String :=
  pySplitAux sep.data (s.data.length + 1) [] s.data

/-- Python `sep.join(xs)`. -/
def pyJoin (sep : String) : List String → String
  | [] => ""
  | [x] => x
  | x :: xs => x ++ sep ++ pyJoin sep xs

/-- Python `s.capitalize()`: first character upper-cased, the rest lower-cased. -/
def pyCapitalize (s : String) : String :=
  match s.data with
  | [] => ""
  | c :: cs => String.mk (c.toUpper :: cs.map Char.toLower)

/-- Python `s.rstrip(chars)`: remove any trailing characters from the set. -/
def pyRstrip (s : String) (chars : List Char) : String :=
  String.mk ((s.data.reverse.dropWhile (fun c => chars.contains c)).reverse)

/-- Python `s.replace("-", " ")` (single-character pattern, so char-wise). -/
def pyReplaceDash (s : String) : String :=
  String.mk (s.data.map (fun c => if c = '-' then ' ' else c))

/-- The `Transponder` record imported from `app.eparser`.
Modelled from the spec: `app.eparser` is not among the sources; field names
and order follow the constructor calls in `satellites.py`
(`Transponder(freq, sr, pol, fec, sys, mod, pls_mode, pls_code, is_id)`),
with `Option` for fields the source sets to Python `None`. -/
structure Transponder where
  frequency : String
  symbol_rate : String
  polarization : String
  fec : String
  system : String
  modulation : String
  pls_mode : Option Nat
  pls_code : Option String
  is_id : Option String
deriving DecidableEq, Repr

/-- Modelled from the spec: `PLS_MODE` from `app.eparser.ecommons` is a fixed
read-only mapping between provider-internal numeric codes and the PLS mode
names `Root`/`Gold`/`Combo`; the codes themselves are not in the sources, so
the standard DVB-S2 numbering is used. -/
def PLS_MODE : List (Nat × String) := [(0, "Root"), (1, "Gold"), (2, "Combo")]

/-- The inverted table `{v: k for k, v in PLS_MODE.items()}` followed by
`.get(name, None)`. -/
def pls_modes_get (nm : String) : Option Nat :=
  (PLS_MODE.find? (fun p => p.2 == nm)).map (·.1)

/-- The four accepted polarization letters (spec section 3). -/
def POLARIZATIONS : List String := ["H", "V", "L", "R"]

/-- Modelled from the spec: the "small fixed set of standard fractions"
accepted as FEC values. -/
def FEC_SET : List String :=
  ["1/2", "2/3", "3/4", "3/5", "4/5", "5/6", "7/8", "8/9", "9/10"]

/-- The two accepted DVB-S variants (spec section 3). -/
def SYSTEMS : List String := ["DVB-S", "DVB-S2"]

/-- Modelled from the spec: `is_transponder_valid` from `app.eparser` (not in
the sources) accepts a transponder iff frequency and symbol rate parse as
strictly positive integers, the polarization is one of the four accepted
letters, the FEC is in the fixed fraction set, and the system is one of the
two DVB-S variants. -/
def is_transponder_valid (tr : Transponder) : Bool :=
  (match pyInt? tr.frequency with
   | some n => decide (0 < n)
   | none => false) &&
  (match pyInt? tr.symbol_rate with
   | some n => decide (0 < n)
   | none => false) &&
  POLARIZATIONS.contains tr.polarization &&
  FEC_SET.contains tr.fec &&
  SYSTEMS.contains tr.system

/-- `SatellitesParser.parse_position`: keep only digits, letters and dots. -/
def parse_position (pos_str : String) : String :=
  String.mk (pos_str.data.filter (fun c => c.isDigit || c.isAlpha || c = '.'))

/-- `SatellitesParser.get_position`; `none` models the `IndexError` raised by
`pos[-1]` on an empty string. -/
def get_position (pos : String) : Option String :=
  match pos.data.getLast? with
  | none => none
  | some c => some ((if c = 'W' then "-" else "") ++ String.mk pos.data.dropLast)

/-- The `SatelliteSource` enumeration. -/
inductive SatelliteSource where
  | FLYSAT
  | LYNGSAT
deriving DecidableEq, Repr

/-- `SatelliteSource.get_sources` / the enumeration values. -/
def SatelliteSource.get_sources : SatelliteSource → List String
  | .FLYSAT => ["https://www.flysat.com/satlist.php"]
  | .LYNGSAT => ["https://www.lyngsat.com/asia.html", "https://www.lyngsat.com/europe.html",
                 "https://www.lyngsat.com/atlantic.html", "https://www.lyngsat.com/america.html"]

/-- A markup event as delivered by the standard-library `HTMLParser` to the
subclass callbacks: documents are modelled at the callback level, each
document being the ordered list of its events.  Attribute values are plain
strings (valueless attributes, Python value `None`, are not modelled). -/
inductive HEvent where
  | startTag (tag : String) (attrs : List (String × String))
  | dataEv (s : String)
  | endTag (tag : String)
deriving DecidableEq, Repr

/-- The mutable state of a `SatellitesParser` instance: the fields set in
`__init__` (the stored-but-never-read `entities` flag is kept as
`parse_html_entities` for completeness). -/
structure SatellitesParserState where
  parse_html_entities : Bool
  separator : String
  is_td : Bool
  is_th : Bool
  is_provider : Bool
  current_row : List String
  current_cell : List String
  rows : List (List String)
  source : SatelliteSource
deriving DecidableEq, Repr

/-- `SatellitesParser.__init__` with its default arguments
(`source=FLYSAT`, `entities=False`, `separator=' '`). -/
def initState : SatellitesParserState :=
  ⟨false, " ", false, false, false, [], [], [], .FLYSAT⟩

/-- `handle_starttag`; `none` models the `IndexError` raised by `attrs[0][1]`
when an `a` tag carries no attributes.  Note the appended value is the value
of the *first* attribute, whatever its name, and that the append is not
guarded by any inside-row check. -/
def handle_starttag (st : SatellitesParserState) (tag : String)
    (attrs : List (String × String)) : Option SatellitesParserState :=
  let st1 := if tag = "td" then {st with is_td := true} else st
  let st2 := if tag = "tr" then {st1 with is_th := true} else st1
  if tag = "a" then
    match attrs with
    | [] => none
    | (_, v) :: _ => some {st2 with current_row := st2.current_row ++ [v]}
  else some st2

/-- `handle_data`: save stripped content to the current cell while inside a
`td` or a `tr`. -/
def handle_data (st : SatellitesParserState) (s : String) : SatellitesParserState :=
  if st.is_td || st.is_th then {st with current_cell := st.current_cell ++ [pyStrip s]}
  else st

/-- `handle_endtag`: close cells on `td`/`th` and rows on `tr`. -/
def handle_endtag (st : SatellitesParserState) (tag : String) : SatellitesParserState :=
  let st1 := if tag = "td" then {st with is_td := false}
             else if tag = "tr" then {st with is_th := false}
             else st
  if tag = "td" ∨ tag = "th" then
    {st1 with current_row := st1.current_row ++ [pyStrip (pyJoin st1.separator st1.current_cell)],
              current_cell := []}
  else if tag = "tr" then
    {st1 with rows := st1.rows ++ [st1.current_row], current_row := []}
  else st1

/-- Dispatch of one markup event to the three callbacks. -/
def tokStep (st : SatellitesParserState) : HEvent → Option SatellitesParserState
  | .startTag t a => handle_starttag st t a
  | .dataEv s => some (handle_data st s)
  | .endTag t => some (handle_endtag st t)

/-- `self.feed(text)`: run the callbacks over the document's events. -/
def feed (st : SatellitesParserState) (events : List HEvent) :
    Option SatellitesParserState :=
  List.foldlM tokStep st events

/-- One attempt of the pattern `(Stream) (\d+)` anchored at the head of the
input: the digit group (greedy, hence maximal) and the rest of the input. -/
def streamIdAt (cs : List Char) : Option (String × List Char) :=
  if "Stream ".data.isPrefixOf cs then
    let rest := cs.drop 7
    let ds := rest.takeWhile Char.isDigit
    if ds = [] then none else some (String.mk ds, rest.drop ds.length)
  else none

/-- Fuel-indexed scanner for `findStreamIds`; the fuel starts at the input
length and every step consumes at least one character. -/
def findStreamIdsAux : Nat → List Char → List (String × String)
  | 0, _ => []
  | _ + 1, [] => []
  | fuel + 1, c :: cs =>
    match streamIdAt (c :: cs) with
    | some (ds, rest) => ("Stream", ds) :: findStreamIdsAux fuel rest
    | none => findStreamIdsAux fuel cs

/-- `re.findall("(Stream) (\\d+)", s)`: non-overlapping left-to-right matches,
each reported as its pair of capture groups. -/
def findStreamIds (s : String) : List (String × String) :=
  findStreamIdsAux s.data.length s.data

/-- Greedy run of further copies of a literal, for the `+` repetitions in the
PLS pattern; returns the input after the consumed copies. -/
def repsOf (lit : List Char) : Nat → List Char → List Char
  | 0, cs => cs
  | fuel + 1, cs =>
    if lit ≠ [] ∧ lit.isPrefixOf cs then repsOf lit fuel (cs.drop lit.length) else cs

/-- One alternative of `(Root|Gold|Combo)` anchored at the head. -/
def modeAt (cs : List Char) : Option (String × List Char) :=
  if "Root".data.isPrefixOf cs then some ("Root", cs.drop 4)
  else if "Gold".data.isPrefixOf cs then some ("Gold", cs.drop 4)
  else if "Combo".data.isPrefixOf cs then some ("Combo", cs.drop 5)
  else none

/-- Greedy further repetitions of `(Root|Gold|Combo)+`, keeping the last
repetition as the captured group. -/
def modeReps : Nat → String → List Char → (String × List Char)
  | 0, lastM, cs => (lastM, cs)
  | fuel + 1, lastM, cs =>
    match modeAt cs with
    | some (m, rest) => modeReps fuel m rest
    | none => (lastM, cs)

/-- A match of `(PLS:)+ (Root|Gold|Combo)+ (\d+)?` anchored at the head:
capture groups 2 and 3 (group 3 is `""` when the optional digits are absent,
as `re.findall` reports unmatched groups).  Greedy matching; the alternatives
and literals involved make backtracking irrelevant here. -/
def plsAt (cs : List Char) : Option (String × String) :=
  if "PLS:".data.isPrefixOf cs then
    match repsOf "PLS:".data cs.length (cs.drop 4) with
    | ' ' :: rest =>
      match modeAt rest with
      | none => none
      | some (m, rest2) =>
        match modeReps rest2.length m rest2 with
        | (mLast, ' ' :: rest4) => some (mLast, String.mk (rest4.takeWhile Char.isDigit))
        | _ => none
    | _ => none
  else none

/-- Fuel-indexed scanner for `findPls`. -/
def findPlsAux : Nat → List Char → Option (String × String)
  | 0, _ => none
  | _ + 1, [] => none
  | fuel + 1, c :: cs =>
    match plsAt (c :: cs) with
    | some r => some r
    | none => findPlsAux fuel cs

/-- The first match of `re.findall("(PLS:)+ (Root|Gold|Combo)+ (\\d+)?", s)`;
the source only uses `pls[0]` and the emptiness of the match list. -/
def findPls (s : String) : Option (String × String) :=
  findPlsAux s.data.length s.data

/-- The accumulator of the row loop in `get_transponders_for_fly_sat`: the
caller-visible list `trs`, the local list `n_trs` and the pending stream-id
buffer `is_ids`. -/
structure FlySatAcc where
  trs : List Transponder
  n_trs : List Transponder
  is_ids : List (String × String)
deriving DecidableEq, Repr

/-- The `for index, is_id in enumerate(is_ids)` loop: successive `_replace`
on the popped transponder, appending each clone that validates. -/
def cloneLoop (tr : Transponder) : List (String × String) → List Transponder
  | [] => []
  | i :: rest =>
    let tr' := {tr with is_id := some i.2}
    (if is_transponder_valid tr' then [tr'] else []) ++ cloneLoop tr' rest

/-- The `zeros` padding constant. -/
def zeros : String := "000"

/-- One iteration of the row loop in `get_transponders_for_fly_sat`; `none`
models the `IndexError` of `trs.pop()` on an empty list.  The early `continue`
paths leave the pending `is_ids` buffer untouched; full processing of a data
row clears it. -/
def flySatStep (acc : FlySatAcc) (r : List String) : Option FlySatAcc :=
  if r.length = 1 then some {acc with is_ids := acc.is_ids ++ findStreamIds (r.getD 0 "")}
  else
    if r.length < 3 then some acc
    else
      let data2 := pySplit (r.getD 2 "") " "
      if data2.length ≠ 2 then some acc
      else
        let sr := data2.getD 0 ""
        let fec := data2.getD 1 ""
        let data1 := pySplit (r.getD 1 "") " "
        if data1.length < 3 then some acc
        else
          let freq := data1.getD 0 ""
          let pol := data1.getD 1 ""
          let sysl := pySplit (data1.getD 2 "") "/"
          if sysl.length ≠ 2 then some acc
          else
            let sys := sysl.getD 0 ""
            let md0 := sysl.getD 1 ""
            let md := if sys = "DVB-S" then "QPSK" else md0
            let pls := findPls (r.getD 1 "")
            let pls_code : Option String := pls.map (·.2)
            let pls_mode : Option Nat := pls.bind (fun p => pls_modes_get p.1)
            if acc.is_ids ≠ [] then
              match acc.trs.getLast? with
              | none => none
              | some tr => some ⟨acc.trs.dropLast, acc.n_trs ++ cloneLoop tr acc.is_ids, []⟩
            else
              let tr : Transponder :=
                ⟨freq ++ zeros, sr ++ zeros, pol, fec, sys, md, pls_mode, pls_code, none⟩
              some ⟨if is_transponder_valid tr then acc.trs ++ [tr] else acc.trs, acc.n_trs, []⟩

/-- `get_transponders_for_fly_sat(self, trs)`: mutates the passed list `trs`
(here: returns its new value); `none` models an escaping `IndexError`. -/
def get_transponders_for_fly_sat (rows : List (List String)) (trs : List Transponder) :
    Option (List Transponder) :=
  if rows = [] then some trs
  else (List.foldlM flySatStep ⟨trs, [], []⟩ rows).map (fun acc => acc.trs ++ acc.n_trs)

/-- One width attempt of `re.match("(\\d{4,5})\\s+([RLHV]).*", s)`:
`n` digits, then at least one whitespace, then one of the four letters. -/
def frqPolTry (n : Nat) (cs : List Char) : Option (String × String) :=
  let ds := cs.take n
  if ds.length = n ∧ ds.all Char.isDigit then
    let rest := cs.drop n
    let ws := rest.takeWhile pyIsSpace
    if ws = [] then none
    else
      match rest.drop ws.length with
      | c :: _ =>
        if c = 'R' ∨ c = 'L' ∨ c = 'H' ∨ c = 'V' then some (String.mk ds, String.mk [c])
        else none
      | [] => none
  else none

/-- `re.match` of the LyngSat frequency/polarization pattern: the greedy
`{4,5}` tries five digits first, then four. -/
def frqPolMatch (s : String) : Option (String × String) :=
  match frqPolTry 5 s.data with
  | some r => some r
  | none => frqPolTry 4 s.data

/-- Largest offset `j ≥ 1` with `"PSK"` at `j`: the end chosen by the greedy
backtracking of `(.+PSK)?` (the newline subtleties of `.` and `$` in the
Python pattern are not modelled; cell text is single-line here). -/
def lastPsk (cs : List Char) : Option Nat :=
  (List.range cs.length).foldl
    (fun acc i => if "PSK".data.isPrefixOf (cs.drop (i + 1)) then some (i + 1) else acc) none

/-- One width attempt of
`re.match("^(\\d{4,5})-(\\d/\\d)(.+PSK)?(.*)?$", s)`: groups 1 to 3. -/
def srFecTry (n : Nat) (cs : List Char) : Option (String × String × Option String) :=
  let ds := cs.take n
  if ds.length = n ∧ ds.all Char.isDigit then
    match cs.drop n with
    | '-' :: d1 :: '/' :: d2 :: rest =>
      if d1.isDigit && d2.isDigit then
        some (String.mk ds, String.mk [d1, '/', d2],
              (lastPsk rest).map (fun j => String.mk (rest.take (j + 3))))
      else none
    | _ => none
  else none

/-- `re.match` of the LyngSat symbol-rate/FEC pattern. -/
def srFecMatch (s : String) : Option (String × String × Option String) :=
  match srFecTry 5 s.data with
  | some r => some r
  | none => srFecTry 4 s.data

/-- Case-insensitive literal check, for the `re.IGNORECASE` pattern. -/
def ciStartsWith (cs : List Char) : List Char → Bool
  | [] => true
  | p :: ps =>
    match cs with
    | [] => false
    | c :: rest => (c.toLower = p.toLower) && ciStartsWith rest ps

/-- The optional single space `" ?"` between the parts of the pattern. -/
def dropOneSpace : List Char → List Char
  | ' ' :: r => r
  | r => r

/-- Case-insensitive `(Root|Gold|Combo)` at the head, capturing the input
slice with its original case (the source re-capitalizes it afterwards). -/
def ciModeAt (cs : List Char) : Option (String × List Char) :=
  if ciStartsWith cs "root".data then some (String.mk (cs.take 4), cs.drop 4)
  else if ciStartsWith cs "gold".data then some (String.mk (cs.take 4), cs.drop 4)
  else if ciStartsWith cs "combo".data then some (String.mk (cs.take 5), cs.drop 5)
  else none

/-- Greedy further case-insensitive repetitions of `(Root|Gold|Combo)+`. -/
def ciModeReps : Nat → String → List Char → (String × List Char)
  | 0, lastM, cs => (lastM, cs)
  | fuel + 1, lastM, cs =>
    match ciModeAt cs with
    | some (m, rest) => ciModeReps fuel m rest
    | none => (lastM, cs)

/-- One repetition of `PLS+ (Root|Gold|Combo)+ (\d+)` of the system pattern
(`PLS+` is `P`, `L`, then one or more `S`), case-insensitive; returns
capture groups 3 and 4 and the rest of the input. -/
def plsRepAt (cs : List Char) : Option (String × String × List Char) :=
  match cs with
  | p :: l :: rest =>
    if p.toLower = 'p' ∧ l.toLower = 'l' then
      let sRun := rest.takeWhile (fun c => c.toLower = 's')
      if sRun = [] then none
      else
        match rest.drop sRun.length with
        | ' ' :: a2 =>
          match ciModeAt a2 with
          | none => none
          | some (m, r2) =>
            match ciModeReps r2.length m r2 with
            | (mLast, ' ' :: r4) =>
              let ds := r4.takeWhile Char.isDigit
              if ds = [] then none else some (mLast, String.mk ds, r4.drop ds.length)
            | _ => none
        | _ => none
    else none
  | _ => none

/-- The starred group `(PLS+ (Root|Gold|Combo)+ (\d+))*`: greedy repetitions,
capture groups keeping the values of the last repetition. -/
def plsStar : Nat → Option String → Option String → List Char →
    (Option String × Option String × List Char)
  | 0, g3, g4, cs => (g3, g4, cs)
  | fuel + 1, g3, g4, cs =>
    match plsRepAt cs with
    | some (m, d, rest) => plsStar fuel (some m) (some d) rest
    | none => (g3, g4, cs)

/-- The optional `(multistream stream (\d+))?`, case-insensitive: group 6. -/
def multiStreamAt (cs : List Char) : Option String :=
  if ciStartsWith cs "multistream stream ".data then
    let ds := (cs.drop 19).takeWhile Char.isDigit
    if ds = [] then none else some (String.mk ds)
  else none

/-- `re.match` of the LyngSat system pattern
`(DVB-S[2]?) ?(PLS+ (Root|Gold|Combo)+ (\d+))* ?(multistream stream (\d+))?`
with `re.IGNORECASE`: groups 1, 3, 4 and 6.  Matching is greedy left to
right; only group 1 can make the whole match fail since everything after it
is optional. -/
def sysMatch (s : String) : Option (String × Option String × Option String × Option String) :=
  let cs := s.data
  if ciStartsWith cs "dvb-s".data then
    let k := if ciStartsWith (cs.drop 5) "2".data then 6 else 5
    let g1 := String.mk (cs.take k)
    let rest := dropOneSpace (cs.drop k)
    match plsStar rest.length none none rest with
    | (g3, g4, rest2) => some (g1, g3, g4, multiStreamAt (dropOneSpace rest2))
  else none

/-- One iteration of the row loop in `get_transponders_for_lyng_sat` (rows
already filtered to width > 8); `none` models the `continue` paths of the
three pattern checks. -/
def lyngRow (r : List String) : Option Transponder :=
  let freq :=
    match frqPolMatch (r.getD 1 "") with
    | some x => some x
    | none =>
      match frqPolMatch (r.getD 2 "") with
      | some x => some x
      | none => frqPolMatch (r.getD 3 "")
  match freq with
  | none => none
  | some (frq, pol) =>
    match srFecMatch (r.getD (r.length - 3) "") with
    | none => none
    | some (sr, fec, md0) =>
      let md := match md0 with
                | some m => pyStrip m
                | none => "Auto"
      match sysMatch (r.getD (r.length - 4) "") with
      | none => none
      | some (sys, g3, g4, g6) =>
        let pls_mode : Option Nat :=
          match g3 with
          | some m => pls_modes_get (pyCapitalize m)
          | none => none
        some ⟨frq ++ zeros, sr ++ zeros, pol, fec, sys, md, pls_mode, g4, g6⟩

/-- One appended-or-skipped row of the LyngSat extractor: build the candidate
and keep it only when it validates. -/
def lyngTrStep (acc : List Transponder) (r : List String) : List Transponder :=
  match lyngRow r with
  | some tr => if is_transponder_valid tr then acc ++ [tr] else acc
  | none => acc

/-- `get_transponders_for_lyng_sat(self, trs)`: mutates the passed list `trs`
(here: returns its new value); every candidate is validated before being
appended.  This extractor has no exception path. -/
def get_transponders_for_lyng_sat (rows : List (List String)) (trs : List Transponder) :
    List Transponder :=
  (rows.filter (fun r => decide (8 < r.length))).foldl lyngTrStep trs

/-- The sort key `lambda x: int(x.frequency)` (total stand-in; the `ValueError`
of `int` is checked separately in `pySortedByFreq`). -/
def sortKey (t : Transponder) : Int :=
  (pyInt? t.frequency).getD 0

/-- Stable ascending insertion of one element (later elements go after equal
keys, as in Python's stable `sorted`). -/
def orderedIns (x : Transponder) : List Transponder → List Transponder
  | [] => [x]
  | y :: ys => if sortKey x < sortKey y then x :: y :: ys else y :: orderedIns x ys

/-- Python `sorted(trs, key=lambda x: int(x.frequency))`: a stable ascending
sort, so insertion sort is extensionally equal to it; `none` models the
`ValueError` from `int` on a non-numeric frequency. -/
def pySortedByFreq (trs : List Transponder) : Option (List Transponder) :=
  if trs.all (fun t => (pyInt? t.frequency).isSome) then
    some (trs.foldl (fun acc x => orderedIns x acc) [])
  else none

/-- Outcome of one `requests.get`: a response with its HTTP reason phrase and
the markup events of its body text, or a transport-level connection error
(`requests.exceptions.ConnectionError`). -/
inductive FetchResult where
  | response (reason : String) (events : List HEvent)
  | connErr
deriving Repr

/-- The network environment: what `requests.get` yields per URL. -/
abbrev Net := String → FetchResult

/-- The tokenizer-state handling shared by the start of both public
operations: only the rows buffer is cleared (`self._rows.clear()`); the
`is_td`/`is_th` flags and the current cell/row buffers are left as they were
(`self.reset()` in `get_satellites_list` only touches the base-class markup
machinery, which is not part of this state). -/
def clearRows (st : SatellitesParserState) : SatellitesParserState :=
  {st with rows := []}

/-- The detail-page URL resolution at the top of `get_transponders`. -/
def transponders_url (src : SatelliteSource) (sat_url : String) : String :=
  if src = .FLYSAT then "https://www.flysat.com/" ++ sat_url else sat_url

/-- `get_transponders(self, sat_url)`: returns the new parser state and the
frequency-sorted transponder list; the outer `none` models an uncaught
exception (the `requests.get` here is not wrapped in `try`, so a connection
error escapes, as do tokenizer and extractor errors). -/
def get_transponders (st : SatellitesParserState) (sat_url : String) (net : Net) :
    Option (SatellitesParserState × List Transponder) :=
  let st1 := clearRows st
  match net (transponders_url st1.source sat_url) with
  | .connErr => none
  | .response reason events =>
    if reason = "OK" then
      match feed st1 events with
      | none => none
      | some st2 =>
        let trs? : Option (List Transponder) :=
          match st2.source with
          | .FLYSAT => get_transponders_for_fly_sat st2.rows []
          | .LYNGSAT => some (get_transponders_for_lyng_sat st2.rows [])
        match trs? with
        | none => none
        | some trs => (pySortedByFreq trs).map (fun l => (st2, l))
    else some (st1, [])

/-- The satellite tuples produced by `get_satellites_list`:
`(name, position, category, detail url, reserved flag)`. -/
abbrev SatTuple := String × String × String × String × Bool

/-- Provider A adapter as the spec states it: keep exactly the rows with
exactly 5 cells, all non-empty, and map each surviving row `r`, in order, to
`(name=r[1], position=parse_position(r[2]), category=r[3], detail_url=r[0],
reserved_flag=false)`. -/
def flySatSatsSpec (rows : List (List String)) : List SatTuple :=
  (rows.filter (fun r => r.length == 5 && r.all (fun c => c != ""))).map
    (fun r => (r.getD 1 "", parse_position (r.getD 2 ""), r.getD 3 "", r.getD 0 "", false))

/-- The LyngSat base URL constant of `get_satellites_list`. -/
def LYNG_BASE : String := "https://www.lyngsat.com/"

/-- `re.match("^https://www\\.lyngsat\\.com/[\\w-]+\\.html", d)` returning
`group(0)` (ASCII approximation of `\w`). -/
def lyngUrlMatch (d : String) : Option String :=
  let cs := d.data
  if LYNG_BASE.data.isPrefixOf cs then
    let rest := cs.drop LYNG_BASE.data.length
    let run := rest.takeWhile (fun c => c.isAlphanum || c = '_' || c = '-')
    if run ≠ [] ∧ ".html".data.isPrefixOf (rest.drop run.length) then
      some (LYNG_BASE ++ String.mk run ++ ".html")
    else none
  else none

/-- The name derivation `u.rsplit("/")[-1].rstrip(".html").replace("-", " ")`
(`rstrip` takes a character set, so any trailing `.`/`h`/`t`/`m`/`l`). -/
def lyngName (u : String) : String :=
  pyReplaceDash (pyRstrip ((pySplit u "/").getLastD "") ['.', 'h', 't', 'm', 'l'])

/-- The `for d in data` loop detecting the band marker: the last cell equal to
`C`, `Ku` or `CKu` wins (initial value `""`). -/
def lyngBandMarker (data : List String) : String :=
  data.foldl (fun acc d => if d = "C" ∨ d = "Ku" ∨ d = "CKu" then d else acc) ""

/-- The candidate detail URLs of a width-8 row.  The source collects them in a
Python `set`, whose iteration order is unspecified; modelled as first
occurrence order, deduplicated. -/
def lyngUrls (data : List String) : List String :=
  data.foldl
    (fun acc d =>
      match lyngUrlMatch d with
      | some u => if acc.contains u then acc else acc ++ [u]
      | none => acc) []

/-- One iteration of the row loop in the LyngSat branch of
`get_satellites_list` (rows already filtered to widths 5/7/8), carrying the
`current_pos` accumulator; `none` models the `IndexError` of `data[1]` when a
width-8 row has fewer than two non-empty cells.  Note the width-7 block is a
plain `if` while width 8 and 5 form an `if`/`elif` chain, exactly as in the
source. -/
def lyngSatStep (acc : String × List SatTuple) (row : List String) :
    Option (String × List SatTuple) :=
  let r_len := row.length
  let acc1 :=
    if r_len = 7 then
      let pos := parse_position (row.getD 2 "")
      let nm := lyngName (row.getD 1 "")
      (pos, acc.2 ++ [(nm, pos, row.getD 5 "", LYNG_BASE ++ row.getD 1 "", false),
                      (row.getD 4 "", pos, row.getD 5 "", LYNG_BASE ++ row.getD 3 "", false)])
    else acc
  if r_len = 8 then
    let data := row.filter (fun c => c != "")
    let urls := lyngUrls data
    let sat_type := lyngBandMarker data
    if data.length < 2 then none
    else
      let pos := parse_position (data.getD 1 "")
      some (pos, acc1.2 ++ urls.map (fun u => (lyngName u, pos, sat_type, LYNG_BASE ++ u, false)))
  else if r_len = 5 then
    some (acc1.1, acc1.2 ++ [(row.getD 2 "", acc1.1, row.getD 3 "", LYNG_BASE ++ row.getD 1 "", false)])
  else some acc1

/-- The LyngSat branch of `get_satellites_list`: fold the row loop over the
rows of widths 5, 7 and 8, starting from `current_pos = "0"`. -/
def lyngSats (rows : List (List String)) : Option (List SatTuple) :=
  (List.foldlM lyngSatStep ("0", [])
    (rows.filter (fun x => x.length == 5 || x.length == 7 || x.length == 8))).map (·.2)

/-- The per-URL loop and the tail of `get_satellites_list`.  `none` is an
uncaught exception; `some (st, none)` is the Python `None` fall-through
return; `some (st, some l)` a returned list (`[]` on connection error). -/
def satListLoop (net : Net) : List String → SatellitesParserState →
    Option (SatellitesParserState × Option (List SatTuple))
  | [], st =>
    if st.rows ≠ [] then
      match st.source with
      | .FLYSAT =>
        some (st, some ((st.rows.filter (fun x => x.all (fun c => c != "") && x.length == 5)).map
          (fun r => (r.getD 1 "", parse_position (r.getD 2 ""), r.getD 3 "", r.getD 0 "", false))))
      | .LYNGSAT =>
        match lyngSats st.rows with
        | none => none
        | some sats => some (st, some sats)
    else some (st, none)
  | url :: rest, st =>
    match net url with
    | .connErr => some (st, some [])
    | .response reason events =>
      if reason = "OK" then
        match feed st events with
        | none => none
        | some st' => satListLoop net rest st'
      else satListLoop net rest st

/-- `get_satellites_list(self, source)`: clears the rows buffer, stores the
source and loops over the source's pages. -/
def get_satellites_list (st : SatellitesParserState) (source : SatelliteSource) (net : Net) :
    Option (SatellitesParserState × Option (List SatTuple)) :=
  satListLoop net source.get_sources {clearRows st with source := source}

/-! ## Theorems -/

/-- Validity never looks at the stream id field. -/
theorem is_transponder_valid_set_id (t : Transponder) (x : Option String) :
    is_transponder_valid {t with is_id := x} = is_transponder_valid t := rfl

/-- Cloning a valid transponder over a list of stream ids keeps every clone:
the clone loop is a plain map with the stream id set. -/
theorem cloneLoop_of_valid :
    ∀ (ids : List (String × String)) (t : Transponder),
      is_transponder_valid t = true →
      cloneLoop t ids = ids.map (fun i => {t with is_id := some i.2}) := by
  intro ids
  induction ids with
  | nil => intro t _; rfl
  | cons i rest ih =>
    intro t hv
    have hv' : is_transponder_valid {t with is_id := some i.2} = true := hv
    simp only [cloneLoop, hv', if_true, List.map_cons, List.singleton_append]
    rw [ih _ hv']

/-- The stream-marker arm of the row loop. -/
theorem flySatStep_marker (acc : FlySatAcc) (x : String) :
    flySatStep acc [x] = some {acc with is_ids := acc.is_ids ++ findStreamIds x} := rfl

/-- The data-row arm of the row loop when stream ids are pending: the shape
checks pass, the most recently appended transponder is popped and its clones
are buffered; the parsed fields of the row itself are discarded. -/
theorem flySatStep_data_pop (acc : FlySatAcc) (a b c sr fec s0 s1 s2 sy m' : String)
    (rest tl : List String)
    (h2 : pySplit c " " = [sr, fec])
    (h1 : pySplit b " " = s0 :: s1 :: s2 :: tl)
    (hy : pySplit s2 "/" = [sy, m'])
    (t0 : Transponder) (hl : acc.trs.getLast? = some t0) (hne : acc.is_ids ≠ []) :
    flySatStep acc (a :: b :: c :: rest) =
      some ⟨acc.trs.dropLast, acc.n_trs ++ cloneLoop t0 acc.is_ids, []⟩ := by
  have hL1 : ((a :: b :: c :: rest) : List String).length ≠ 1 := by
    simp [List.length_cons]
  have hL3 : ¬ ((a :: b :: c :: rest) : List String).length < 3 := by
    simp only [List.length_cons]
    omega
  have g2 : ((a :: b :: c :: rest) : List String).getD 2 "" = c := rfl
  have g1 : ((a :: b :: c :: rest) : List String).getD 1 "" = b := rfl
  simp only [flySatStep, if_neg hL1, if_neg hL3, g2, g1, h2, h1]
  simp [hy, hne, hl]

/-- C1, counterexample: a FlySat stream-marker row containing `Stream 1` and
`Stream 2` immediately followed by one valid data row, with nothing before
them, makes `get_transponders_for_fly_sat` pop from an empty list: the
`IndexError` escapes (modelled as `none`) and no transponders at all are
emitted, contradicting the claimed two emitted transponders. -/
theorem c1_counterexample :
    get_transponders_for_fly_sat
      [["Stream 1 , Stream 2"], ["u", "12345 H DVB-S2/8PSK", "27500 3/4"]] [] = none := by
  decide

/-- C1, amended: for Provider A (FlySat), when a width-1 row whose text
contains `Stream 1` and `Stream 2` is immediately followed by one valid
width-≥3 data row, *and at least one transponder has already been appended*,
`get_transponders_for_fly_sat` pops that most recently appended transponder
and emits exactly two transponders, clones of it identical to each other
except for `stream_id` values `"1"` and `"2"`, and emits no transponder with
`stream_id = None` for that data row (the data row's own parse is
discarded). -/
theorem c1_amended (l : List Transponder) (t0 : Transponder) (x a b c sr fec s0 s1 s2 sy m' : String)
    (rest tl : List String)
    (hx : findStreamIds x = [("Stream", "1"), ("Stream", "2")])
    (h2 : pySplit c " " = [sr, fec])
    (h1 : pySplit b " " = s0 :: s1 :: s2 :: tl)
    (hy : pySplit s2 "/" = [sy, m'])
    (hv : is_transponder_valid t0 = true) :
    get_transponders_for_fly_sat [[x], a :: b :: c :: rest] (l ++ [t0]) =
      some (l ++ [{t0 with is_id := some "1"}, {t0 with is_id := some "2"}]) := by
  have hrows : ([[x], a :: b :: c :: rest] : List (List String)) ≠ [] := by simp
  have hpop := flySatStep_data_pop ⟨l ++ [t0], [], [] ++ findStreamIds x⟩ a b c sr fec s0 s1 s2 sy m'
    rest tl h2 h1 hy t0 (by simp [List.getLast?_concat]) (by simp [hx])
  simp only [get_transponders_for_fly_sat, if_neg hrows, List.foldlM_cons, flySatStep_marker,
    Option.bind_eq_bind, Option.some_bind, hpop, List.foldlM_nil]
  simp [cloneLoop_of_valid _ _ hv, hx, List.dropLast_concat]

/-- C1, witness for the amended theorem at a concrete page fragment. -/
theorem c1_witness :
    get_transponders_for_fly_sat
      [["Stream 1 , Stream 2"], ["u", "12345 H DVB-S2/8PSK", "27500 3/4"]]
      [⟨"10720000", "27500000", "V", "3/4", "DVB-S", "QPSK", none, none, none⟩] =
    some [⟨"10720000", "27500000", "V", "3/4", "DVB-S", "QPSK", none, none, some "1"⟩,
          ⟨"10720000", "27500000", "V", "3/4", "DVB-S", "QPSK", none, none, some "2"⟩] :=
  c1_amended [] ⟨"10720000", "27500000", "V", "3/4", "DVB-S", "QPSK", none, none, none⟩
    "Stream 1 , Stream 2" "u" "12345 H DVB-S2/8PSK" "27500 3/4"
    "27500" "3/4" "12345" "H" "DVB-S2/8PSK" "DVB-S2" "8PSK" [] []
    (by decide) (by decide) (by decide) (by decide) (by decide)

/-- C3, counterexample: a transport-level connection failure on a detail-page
fetch makes `get_transponders` raise — the `requests.get` inside it is not
wrapped in `try`/`except` (only `get_satellites_list` catches
`ConnectionError`) — so the exception propagates to the caller (`none`)
instead of yielding an empty transponder list. -/
theorem c3_counterexample :
    get_transponders initState "satx.php" (fun _ => FetchResult.connErr) = none := rfl

/-- C3, amended: a non-OK HTTP reason on the detail page makes
`get_transponders` return an empty transponder list for that satellite (the
reason is logged), without raising; but a transport-level connection failure
is *not* caught there and propagates as an exception. -/
theorem c3_amended (st : SatellitesParserState) (sat_url reason : String)
    (events : List HEvent) (net : Net)
    (hnet : net (transponders_url st.source sat_url) = .response reason events)
    (hr : reason ≠ "OK") :
    get_transponders st sat_url net = some (clearRows st, []) := by
  simp [get_transponders, clearRows, hnet, hr]

/-- C3, witness for the amended theorem: a concrete 404-style response. -/
theorem c3_witness :
    get_transponders initState "satx.php" (fun _ => FetchResult.response "Not Found" []) =
      some (clearRows initState, []) :=
  c3_amended initState "satx.php" "Not Found" [] _ rfl (by decide)

/-- C9, counterexample: on an `<a>` whose first attribute is not `href`, the
tokenizer appends the value of the *first* attribute (`attrs[0][1]`), not the
`href` value; and it does so although no row is open (`is_th = false`), so an
extra cell is contributed outside any row. -/
theorem c9_counterexample :
    handle_starttag initState "a" [("target", "_blank"), ("href", "u")] =
      some {initState with current_row := ["_blank"]} ∧
    initState.is_th = false ∧ "_blank" ≠ "u" := by
  refine ⟨rfl, rfl, by decide⟩

/-- C9, amended: every `<a>` start tag carrying at least one attribute
appends exactly one extra cell to the current-row buffer, equal to the value
of its *first* attribute (which is the `href` exactly when `href` is listed
first), whether or not a row is currently open; an `<a>` with no attributes
raises `IndexError`; anchors contribute nothing else. -/
theorem c9_amended (st : SatellitesParserState) (nm v : String)
    (rest : List (String × String)) :
    handle_starttag st "a" ((nm, v) :: rest) =
      some {st with current_row := st.current_row ++ [v]} := rfl

/-- C8 (confirmed): `parse_position("13.0°E") = "13.0E"`; the signed-position
conversion maps `"13.0E"` to `"13.0"` and `"1.0W"` to `"-1.0"`; in general
`parse_position` keeps exactly the digits, letters and decimal points of its
input, and `get_position` (on a non-empty input, whose last character exists)
prefixes `"-"` exactly when the last character is `'W'` and drops the
orientation suffix. -/
theorem c8_theorem (s t : String) (c : Char) (cs : List Char)
    (h : t.data = cs ++ [c]) :
    parse_position "13.0°E" = "13.0E" ∧
    get_position "13.0E" = some "13.0" ∧
    get_position "1.0W" = some "-1.0" ∧
    (parse_position s).data = s.data.filter (fun ch => ch.isDigit || ch.isAlpha || ch = '.') ∧
    get_position t = some ((if c = 'W' then "-" else "") ++ String.mk cs) := by
  refine ⟨by decide, by decide, by decide, rfl, ?_⟩
  simp only [get_position, h, List.getLast?_concat, List.dropLast_concat]

/-- C8, witness at the spec's own example values. -/
theorem c8_witness :
    parse_position "13.0°E" = "13.0E" ∧
    get_position "13.0E" = some "13.0" ∧
    get_position "1.0W" = some "-1.0" ∧
    (parse_position "a°1").data =
      "a°1".data.filter (fun ch => ch.isDigit || ch.isAlpha || ch = '.') ∧
    get_position "1.0W" = some ((if 'W' = 'W' then "-" else "") ++ String.mk ['1', '.', '0']) :=
  c8_theorem "a°1" "1.0W" 'W' ['1', '.', '0'] (by decide)

/-- C10 (confirmed): when every source-page fetch yields a non-OK reason (so
no rows are ever accumulated), `get_satellites_list` falls off the end of the
function and returns Python `None` (modelled `some (st, none)`) rather than
an empty list. -/
theorem c10_theorem (st : SatellitesParserState) (source : SatelliteSource) (net : Net)
    (h : ∀ url, ∃ r evs, net url = .response r evs ∧ r ≠ "OK") :
    get_satellites_list st source net = some ({clearRows st with source := source}, none) := by
  cases source with
  | FLYSAT =>
    obtain ⟨r1, e1, hn1, hr1⟩ := h "https://www.flysat.com/satlist.php"
    simp [get_satellites_list, SatelliteSource.get_sources, satListLoop, hn1, hr1, clearRows]
  | LYNGSAT =>
    obtain ⟨r1, e1, hn1, hr1⟩ := h "https://www.lyngsat.com/asia.html"
    obtain ⟨r2, e2, hn2, hr2⟩ := h "https://www.lyngsat.com/europe.html"
    obtain ⟨r3, e3, hn3, hr3⟩ := h "https://www.lyngsat.com/atlantic.html"
    obtain ⟨r4, e4, hn4, hr4⟩ := h "https://www.lyngsat.com/america.html"
    simp [get_satellites_list, SatelliteSource.get_sources, satListLoop,
      hn1, hr1, hn2, hr2, hn3, hr3, hn4, hr4, clearRows]

/-- C10, witness: a network answering 503 everywhere. -/
theorem c10_witness :
    get_satellites_list initState .FLYSAT (fun _ => FetchResult.response "Service Unavailable" []) =
      some ({clearRows initState with source := .FLYSAT}, none) :=
  c10_theorem initState .FLYSAT _ (fun _ => ⟨"Service Unavailable", [], rfl, by decide⟩)

/-- C2, counterexample: the tokenizer callback `handle_starttag` raises
`IndexError` (modelled `none`) on a plain `<a>` tag with no attributes
(`attrs[0][1]` on an empty attribute list), so the core does have an
exception path reaching the caller, contradicting the claim. -/
theorem c2_counterexample :
    handle_starttag initState "a" [] = none := rfl

/-- C6, counterexample: the current-row buffer and the flags are *not* reset
at the start of `get_transponders` (only the rows buffer is cleared).  With
leftover cells in the current-row buffer from a previous invocation, feeding
a document consisting of a bare `</tr>` (no cell data at all) produces one
transponder, while the same call from a fresh parser state produces none —
so the tokenizer state observably survives the invocation boundary. -/
theorem c6_counterexample :
    (get_transponders {initState with current_row := ["u", "12345 H DVB-S/QPSK", "27500 3/4"]}
        "sat.php" (fun _ => FetchResult.response "OK" [.endTag "tr"])).map (fun p => p.2) =
      some [⟨"12345000", "27500000", "H", "3/4", "DVB-S", "QPSK", none, none, none⟩] ∧
    (get_transponders initState "sat.php"
        (fun _ => FetchResult.response "OK" [.endTag "tr"])).map (fun p => p.2) =
      some [] := by
  exact ⟨by decide, by decide⟩

/-- C6, amended: at the start of every `get_satellites_list` and every
`get_transponders` invocation only the rows buffer is cleared
(`get_satellites_list` additionally resets the base-class markup machinery,
which is outside this state): the inside-td/inside-tr flags and the
current-cell/current-row buffers persist from the previous invocation, both
operations behaving exactly as if only `rows` had been emptied; and no
tokenizer state is reset between documents fed within one invocation —
feeding two documents equals feeding their concatenation. -/
theorem c6_amended :
    (∀ st : SatellitesParserState,
        (clearRows st).rows = [] ∧ (clearRows st).is_td = st.is_td ∧
        (clearRows st).is_th = st.is_th ∧ (clearRows st).current_row = st.current_row ∧
        (clearRows st).current_cell = st.current_cell) ∧
    (∀ (st : SatellitesParserState) (u : String) (net : Net),
        get_transponders st u net = get_transponders (clearRows st) u net) ∧
    (∀ (st : SatellitesParserState) (src : SatelliteSource) (net : Net),
        get_satellites_list st src net = get_satellites_list (clearRows st) src net) ∧
    (∀ (st : SatellitesParserState) (evs1 evs2 : List HEvent),
        feed st (evs1 ++ evs2) = (feed st evs1).bind (fun s => feed s evs2)) := by
  refine ⟨fun st => ⟨rfl, rfl, rfl, rfl, rfl⟩, fun st u net => rfl, fun st src net => rfl, ?_⟩
  intro st evs1 evs2
  simp [feed, List.foldlM_append, Option.bind_eq_bind]

/-- No tokenizer callback ever changes the stored source. -/
theorem tokStep_source (st : SatellitesParserState) (e : HEvent)
    (st' : SatellitesParserState) (h : tokStep st e = some st') :
    st'.source = st.source := by
  cases e with
  | startTag tag attrs =>
    simp only [tokStep, handle_starttag] at h
    by_cases ha : tag = "a"
    · rw [if_pos ha] at h
      cases attrs with
      | nil => simp at h
      | cons p rest =>
        cases p
        simp only [Option.some.injEq] at h
        subst h
        (repeat' split) <;> rfl
    · rw [if_neg ha] at h
      simp only [Option.some.injEq] at h
      subst h
      (repeat' split) <;> rfl
  | dataEv s =>
    simp only [tokStep, Option.some.injEq] at h
    subst h
    simp only [handle_data]
    (repeat' split) <;> rfl
  | endTag tag =>
    simp only [tokStep, Option.some.injEq] at h
    subst h
    simp only [handle_endtag]
    (repeat' split) <;> rfl

/-- Feeding a document never changes the stored source. -/
theorem feed_source :
    ∀ (events : List HEvent) (st st' : SatellitesParserState),
      feed st events = some st' → st'.source = st.source := by
  intro events
  induction events with
  | nil =>
    intro st st' h
    simp only [feed, List.foldlM_nil] at h
    cases h
    rfl
  | cons e rest ih =>
    intro st st' h
    simp only [feed, List.foldlM_cons, Option.bind_eq_bind] at h
    cases hstep : tokStep st e with
    | none => rw [hstep] at h; simp at h
    | some st1 =>
      rw [hstep, Option.some_bind] at h
      rw [ih st1 st' h, tokStep_source st e st1 hstep]

/-- The FlySat branch of `get_satellites_list` computes exactly the adapter
the spec describes (the two conjuncts of the row filter commute). -/
theorem flySat_branch_eq_spec (rows : List (List String)) :
    (rows.filter (fun x => x.all (fun c => c != "") && x.length == 5)).map
        (fun r => (r.getD 1 "", parse_position (r.getD 2 ""), r.getD 3 "", r.getD 0 "", false)) =
      flySatSatsSpec rows := by
  unfold flySatSatsSpec
  rw [List.filter_congr (fun a _ => Bool.and_comm (a.all fun c => c != "") (a.length == 5))]

/-- C7 (confirmed): whenever `get_satellites_list` for Provider A (FlySat)
returns a list, that list keeps exactly the accumulated rows with exactly 5
cells, all non-empty, mapped in order to
`(name=r[1], position=parse_position(r[2]), category=r[3], detail_url=r[0],
reserved_flag=false)`. -/
theorem c7_theorem (st : SatellitesParserState) (net : Net)
    (st' : SatellitesParserState) (res : Option (List SatTuple)) (l : List SatTuple)
    (h : get_satellites_list st .FLYSAT net = some (st', res))
    (hl : res = some l) :
    l = flySatSatsSpec st'.rows := by
  subst hl
  simp only [get_satellites_list, SatelliteSource.get_sources] at h
  rw [satListLoop] at h
  cases hnet : net "https://www.flysat.com/satlist.php" with
  | connErr =>
    rw [hnet] at h
    simp only [Option.some.injEq, Prod.mk.injEq] at h
    obtain ⟨hst, hres⟩ := h
    subst hres
    subst hst
    rfl
  | response reason events =>
    rw [hnet] at h
    simp only at h
    by_cases hr : reason = "OK"
    · rw [if_pos hr] at h
      cases hfeed : feed {clearRows st with source := SatelliteSource.FLYSAT} events with
      | none =>
        rw [hfeed] at h
        simp at h
      | some st1 =>
        rw [hfeed] at h
        simp only at h
        have hsrc : st1.source = SatelliteSource.FLYSAT :=
          feed_source events _ st1 hfeed
        rw [satListLoop] at h
        by_cases hrows : st1.rows ≠ []
        · rw [if_pos hrows, hsrc] at h
          simp only [Option.some.injEq, Prod.mk.injEq] at h
          obtain ⟨hst, hres⟩ := h
          subst hres
          subst hst
          exact flySat_branch_eq_spec st1.rows
        · rw [if_neg hrows] at h
          simp at h
    · rw [if_neg hr] at h
      rw [satListLoop] at h
      simp [clearRows] at h

/-- C7, witness: one OK page containing a single five-cell satellite row. -/
theorem c7_witness :
    [("Astra 1", "13.0E", "Ku", "u", false)] =
      flySatSatsSpec
        (⟨false, " ", false, false, false, [], [], [["u", "Astra 1", "13.0°E", "Ku", "x"]],
          .FLYSAT⟩ : SatellitesParserState).rows :=
  c7_theorem initState
    (fun _ => FetchResult.response "OK"
      [.startTag "tr" [], .startTag "td" [], .dataEv "u", .endTag "td",
       .startTag "td" [], .dataEv "Astra 1", .endTag "td",
       .startTag "td" [], .dataEv "13.0°E", .endTag "td",
       .startTag "td" [], .dataEv "Ku", .endTag "td",
       .startTag "td" [], .dataEv "x", .endTag "td", .endTag "tr"])
    ⟨false, " ", false, false, false, [], [], [["u", "Astra 1", "13.0°E", "Ku", "x"]], .FLYSAT⟩
    (some [("Astra 1", "13.0E", "Ku", "u", false)])
    [("Astra 1", "13.0E", "Ku", "u", false)]
    (by rfl) rfl

/-- Appending a candidate under its validation guard keeps every buffered
transponder valid. -/
theorem all_valid_append_ite (acc : List Transponder) (tr : Transponder)
    (h : ∀ t ∈ acc, is_transponder_valid t = true) :
    ∀ t ∈ (if is_transponder_valid tr then acc ++ [tr] else acc),
      is_transponder_valid t = true := by
  by_cases hv : is_transponder_valid tr = true
  · rw [if_pos hv]
    intro t ht
    rcases List.mem_append.mp ht with h1 | h2
    · exact h t h1
    · rw [List.mem_singleton.mp h2]
      exact hv
  · rw [if_neg hv]
    exact h

/-- Every clone kept by the clone loop was validated. -/
theorem cloneLoop_valid :
    ∀ (ids : List (String × String)) (t y : Transponder),
      y ∈ cloneLoop t ids → is_transponder_valid y = true := by
  intro ids
  induction ids with
  | nil =>
    intro t y hy
    simp [cloneLoop] at hy
  | cons i rest ih =>
    intro t y hy
    simp only [cloneLoop] at hy
    rcases List.mem_append.mp hy with h1 | h2
    · by_cases hv : is_transponder_valid {t with is_id := some i.2} = true
      · rw [if_pos hv] at h1
        rw [List.mem_singleton.mp h1]
        exact hv
      · rw [if_neg hv] at h1
        simp at h1
    · exact ih _ y h2

/-- A successful row-loop step preserves "all buffered transponders are
valid". -/
theorem flySatStep_valid (acc acc' : FlySatAcc) (r : List String)
    (h : flySatStep acc r = some acc')
    (htrs : ∀ t ∈ acc.trs, is_transponder_valid t = true)
    (hn : ∀ t ∈ acc.n_trs, is_transponder_valid t = true) :
    (∀ t ∈ acc'.trs, is_transponder_valid t = true) ∧
    (∀ t ∈ acc'.n_trs, is_transponder_valid t = true) := by
  simp only [flySatStep] at h
  by_cases h1 : r.length = 1
  · rw [if_pos h1] at h
    simp only [Option.some.injEq] at h
    subst h
    exact ⟨htrs, hn⟩
  · rw [if_neg h1] at h
    by_cases h3 : r.length < 3
    · rw [if_pos h3] at h
      simp only [Option.some.injEq] at h
      subst h
      exact ⟨htrs, hn⟩
    · rw [if_neg h3] at h
      by_cases hA : (pySplit (r.getD 2 "") " ").length ≠ 2
      · rw [if_pos hA] at h
        simp only [Option.some.injEq] at h
        subst h
        exact ⟨htrs, hn⟩
      · rw [if_neg hA] at h
        by_cases hB : (pySplit (r.getD 1 "") " ").length < 3
        · rw [if_pos hB] at h
          simp only [Option.some.injEq] at h
          subst h
          exact ⟨htrs, hn⟩
        · rw [if_neg hB] at h
          by_cases hC : (pySplit ((pySplit (r.getD 1 "") " ").getD 2 "") "/").length ≠ 2
          · rw [if_pos hC] at h
            simp only [Option.some.injEq] at h
            subst h
            exact ⟨htrs, hn⟩
          · rw [if_neg hC] at h
            by_cases hid : acc.is_ids ≠ []
            · rw [if_pos hid] at h
              cases hl : acc.trs.getLast? with
              | none =>
                rw [hl] at h
                simp at h
              | some t0 =>
                rw [hl] at h
                simp only [Option.some.injEq] at h
                subst h
                constructor
                · intro t ht
                  exact htrs t ((List.dropLast_sublist acc.trs).subset ht)
                · intro t ht
                  rcases List.mem_append.mp ht with hta | htb
                  · exact hn t hta
                  · exact cloneLoop_valid _ _ _ htb
            · rw [if_neg hid] at h
              simp only [Option.some.injEq] at h
              subst h
              exact ⟨all_valid_append_ite acc.trs _ htrs, hn⟩

/-- Folding the FlySat row loop preserves validity of both buffers. -/
theorem foldlM_flySatStep_valid :
    ∀ (rows : List (List String)) (acc acc' : FlySatAcc),
      List.foldlM flySatStep acc rows = some acc' →
      (∀ t ∈ acc.trs, is_transponder_valid t = true) →
      (∀ t ∈ acc.n_trs, is_transponder_valid t = true) →
      (∀ t ∈ acc'.trs, is_transponder_valid t = true) ∧
      (∀ t ∈ acc'.n_trs, is_transponder_valid t = true) := by
  intro rows
  induction rows with
  | nil =>
    intro acc acc' h h1 h2
    simp only [List.foldlM_nil] at h
    cases h
    exact ⟨h1, h2⟩
  | cons r rest ih =>
    intro acc acc' h h1 h2
    rw [List.foldlM_cons, Option.bind_eq_bind] at h
    cases hstep : flySatStep acc r with
    | none =>
      rw [hstep] at h
      simp at h
    | some acc1 =>
      rw [hstep, Option.some_bind] at h
      obtain ⟨g1, g2⟩ := flySatStep_valid acc acc1 r hstep h1 h2
      exact ih acc1 acc' h g1 g2

/-- Everything the FlySat extractor returns (beyond valid input transponders)
is valid. -/
theorem get_transponders_for_fly_sat_valid (rows : List (List String))
    (trs0 out : List Transponder)
    (h : get_transponders_for_fly_sat rows trs0 = some out)
    (h0 : ∀ t ∈ trs0, is_transponder_valid t = true) :
    ∀ t ∈ out, is_transponder_valid t = true := by
  simp only [get_transponders_for_fly_sat] at h
  by_cases hrows : rows = []
  · rw [if_pos hrows] at h
    simp only [Option.some.injEq] at h
    subst h
    exact h0
  · rw [if_neg hrows] at h
    cases hfold : List.foldlM flySatStep ⟨trs0, [], []⟩ rows with
    | none =>
      rw [hfold] at h
      simp at h
    | some accF =>
      rw [hfold, Option.map_some'] at h
      simp only [Option.some.injEq] at h
      subst h
      obtain ⟨g1, g2⟩ := foldlM_flySatStep_valid rows ⟨trs0, [], []⟩ accF hfold h0 (by simp)
      intro t ht
      rcases List.mem_append.mp ht with h1 | h2
      · exact g1 t h1
      · exact g2 t h2

/-- One LyngSat extractor row preserves validity of the accumulator. -/
theorem lyngTrStep_valid (acc : List Transponder) (r : List String)
    (h : ∀ t ∈ acc, is_transponder_valid t = true) :
    ∀ t ∈ lyngTrStep acc r, is_transponder_valid t = true := by
  simp only [lyngTrStep]
  cases lyngRow r with
  | none => exact h
  | some tr => exact all_valid_append_ite acc tr h

/-- Everything the LyngSat extractor returns (beyond valid input
transponders) is valid. -/
theorem get_transponders_for_lyng_sat_valid :
    ∀ (rows : List (List String)) (trs0 : List Transponder),
      (∀ t ∈ trs0, is_transponder_valid t = true) →
      ∀ t ∈ get_transponders_for_lyng_sat rows trs0, is_transponder_valid t = true := by
  have base :
      ∀ (l : List (List String)) (acc : List Transponder),
        (∀ t ∈ acc, is_transponder_valid t = true) →
        ∀ t ∈ List.foldl lyngTrStep acc l, is_transponder_valid t = true := by
    intro l
    induction l with
    | nil => intro acc h; exact h
    | cons r rest ih =>
      intro acc h
      simp only [List.foldl_cons]
      exact ih (lyngTrStep acc r) (lyngTrStep_valid acc r h)
  intro rows trs0 h0
  exact base _ trs0 h0

/-- Membership through one stable insertion. -/
theorem mem_orderedIns (x y : Transponder) :
    ∀ l, y ∈ orderedIns x l → y = x ∨ y ∈ l := by
  intro l
  induction l with
  | nil =>
    intro h
    simp [orderedIns] at h
    exact Or.inl h
  | cons z zs ih =>
    intro h
    simp only [orderedIns] at h
    split at h
    · rcases List.mem_cons.mp h with h1 | h2
      · exact Or.inl h1
      · exact Or.inr h2
    · rcases List.mem_cons.mp h with h1 | h2
      · exact Or.inr (by simp [h1])
      · rcases ih h2 with ha | hb
        · exact Or.inl ha
        · exact Or.inr (List.mem_cons_of_mem z hb)

/-- A stable insertion preserves sortedness by the frequency key. -/
theorem pairwise_orderedIns (x : Transponder) :
    ∀ l, List.Pairwise (fun a b => sortKey a ≤ sortKey b) l →
      List.Pairwise (fun a b => sortKey a ≤ sortKey b) (orderedIns x l) := by
  intro l
  induction l with
  | nil =>
    intro _
    simp [orderedIns]
  | cons z zs ih =>
    intro hp
    rcases List.pairwise_cons.mp hp with ⟨hz, hzs⟩
    simp only [orderedIns]
    split
    next hlt =>
      refine List.Pairwise.cons ?_ hp
      intro w hw
      rcases List.mem_cons.mp hw with h1 | h2
      · rw [h1]
        exact le_of_lt hlt
      · exact le_trans (le_of_lt hlt) (hz w h2)
    next hge =>
      refine List.Pairwise.cons ?_ (ih hzs)
      intro w hw
      rcases mem_orderedIns x w zs hw with h1 | h2
      · rw [h1]
        exact le_of_not_lt hge
      · exact hz w h2

/-- Membership through the whole insertion-sort fold. -/
theorem sortFold_mem :
    ∀ (l acc : List Transponder) (y : Transponder),
      y ∈ List.foldl (fun a x => orderedIns x a) acc l → y ∈ acc ∨ y ∈ l := by
  intro l
  induction l with
  | nil =>
    intro acc y h
    exact Or.inl h
  | cons x xs ih =>
    intro acc y h
    simp only [List.foldl_cons] at h
    rcases ih (orderedIns x acc) y h with h1 | h2
    · rcases mem_orderedIns x y acc h1 with ha | hb
      · exact Or.inr (by simp [ha])
      · exact Or.inl hb
    · exact Or.inr (List.mem_cons_of_mem x h2)

/-- The insertion-sort fold returns a frequency-sorted list. -/
theorem sortFold_pairwise :
    ∀ (l acc : List Transponder),
      List.Pairwise (fun a b => sortKey a ≤ sortKey b) acc →
      List.Pairwise (fun a b => sortKey a ≤ sortKey b)
        (List.foldl (fun a x => orderedIns x a) acc l) := by
  intro l
  induction l with
  | nil => intro acc h; exact h
  | cons x xs ih =>
    intro acc h
    simp only [List.foldl_cons]
    exact ih (orderedIns x acc) (pairwise_orderedIns x acc h)

/-- The Python `sorted` model returns a permutation-membership subset. -/
theorem pySortedByFreq_mem (trs out : List Transponder)
    (h : pySortedByFreq trs = some out) : ∀ y ∈ out, y ∈ trs := by
  simp only [pySortedByFreq] at h
  split at h
  · simp only [Option.some.injEq] at h
    subst h
    intro y hy
    rcases sortFold_mem trs [] y hy with h1 | h2
    · simp at h1
    · exact h2
  · simp at h

/-- The Python `sorted` model returns a frequency-sorted list. -/
theorem pySortedByFreq_pairwise (trs out : List Transponder)
    (h : pySortedByFreq trs = some out) :
    List.Pairwise (fun a b => sortKey a ≤ sortKey b) out := by
  simp only [pySortedByFreq] at h
  split at h
  · simp only [Option.some.injEq] at h
    subst h
    exact sortFold_pairwise trs [] List.Pairwise.nil
  · simp at h

/-- Shared soundness of `get_transponders`: whenever it returns, every
returned transponder passed validation and the list is sorted ascending by
the integer frequency key. -/
theorem get_transponders_sound (st : SatellitesParserState) (sat_url : String) (net : Net)
    (st' : SatellitesParserState) (trs : List Transponder)
    (h : get_transponders st sat_url net = some (st', trs)) :
    (∀ tr ∈ trs, is_transponder_valid tr = true) ∧
    List.Pairwise (fun a b => sortKey a ≤ sortKey b) trs := by
  simp only [get_transponders] at h
  cases hnet : net (transponders_url (clearRows st).source sat_url) with
  | connErr =>
    rw [hnet] at h
    simp at h
  | response reason events =>
    rw [hnet] at h
    simp only at h
    by_cases hr : reason = "OK"
    · rw [if_pos hr] at h
      cases hfeed : feed (clearRows st) events with
      | none =>
        rw [hfeed] at h
        simp at h
      | some st2 =>
        rw [hfeed] at h
        simp only at h
        cases hsrc : st2.source with
        | FLYSAT =>
          rw [hsrc] at h
          simp only at h
          cases hext : get_transponders_for_fly_sat st2.rows [] with
          | none =>
            rw [hext] at h
            simp at h
          | some l0 =>
            rw [hext] at h
            simp only at h
            cases hsort : pySortedByFreq l0 with
            | none =>
              rw [hsort] at h
              simp at h
            | some out =>
              rw [hsort, Option.map_some'] at h
              simp only [Option.some.injEq, Prod.mk.injEq] at h
              obtain ⟨-, htrs⟩ := h
              subst htrs
              refine ⟨?_, pySortedByFreq_pairwise l0 out hsort⟩
              intro tr htr
              exact get_transponders_for_fly_sat_valid st2.rows [] l0 hext (by simp) tr
                (pySortedByFreq_mem l0 out hsort tr htr)
        | LYNGSAT =>
          rw [hsrc] at h
          simp only at h
          cases hsort : pySortedByFreq (get_transponders_for_lyng_sat st2.rows []) with
          | none =>
            rw [hsort] at h
            simp at h
          | some out =>
            rw [hsort, Option.map_some'] at h
            simp only [Option.some.injEq, Prod.mk.injEq] at h
            obtain ⟨-, htrs⟩ := h
            subst htrs
            refine ⟨?_, pySortedByFreq_pairwise _ out hsort⟩
            intro tr htr
            exact get_transponders_for_lyng_sat_valid st2.rows [] (by simp) tr
              (pySortedByFreq_mem _ out hsort tr htr)
    · rw [if_neg hr] at h
      simp only [Option.some.injEq, Prod.mk.injEq] at h
      obtain ⟨-, htrs⟩ := h
      subst htrs
      exact ⟨by simp, List.Pairwise.nil⟩

/-- C4 (confirmed): for every provider and every input, no transponder
failing validation — parsed symbol rate or frequency non-positive (in
particular symbol rate `0`), polarization outside `{H,V,L,R}`, FEC outside
the fixed fraction set, or system outside `{DVB-S, DVB-S2}` — ever appears in
the output of `get_transponders`; invalid candidates are dropped silently
(validation itself is modelled from the spec, `app.eparser` not being among
the sources). -/
theorem c4_theorem (st : SatellitesParserState) (sat_url : String) (net : Net)
    (st' : SatellitesParserState) (trs : List Transponder)
    (h : get_transponders st sat_url net = some (st', trs)) :
    ∀ tr ∈ trs, is_transponder_valid tr = true :=
  fun tr htr => (get_transponders_sound st sat_url net st' trs h).1 tr htr

/-- C4, witness: a concrete FlySat page with one valid data row. -/
theorem c4_witness :
    is_transponder_valid
      ⟨"12345000", "27500000", "H", "3/4", "DVB-S", "QPSK", none, none, none⟩ = true :=
  c4_theorem initState "x"
    (fun _ => FetchResult.response "OK"
      [.startTag "tr" [], .startTag "td" [], .dataEv "u1", .endTag "td",
       .startTag "td" [], .dataEv "12345 H DVB-S/QPSK", .endTag "td",
       .startTag "td" [], .dataEv "27500 3/4", .endTag "td", .endTag "tr"])
    ⟨false, " ", false, false, false, [], [],
      [["u1", "12345 H DVB-S/QPSK", "27500 3/4"]], .FLYSAT⟩
    [⟨"12345000", "27500000", "H", "3/4", "DVB-S", "QPSK", none, none, none⟩]
    (by rfl)
    ⟨"12345000", "27500000", "H", "3/4", "DVB-S", "QPSK", none, none, none⟩
    (by simp)

/-- C5 (confirmed): for every provider and every input row order, the
transponder sequence returned by `get_transponders` is sorted ascending by
the transponder's frequency parsed as an integer. -/
theorem c5_theorem (st : SatellitesParserState) (sat_url : String) (net : Net)
    (st' : SatellitesParserState) (trs : List Transponder)
    (h : get_transponders st sat_url net = some (st', trs)) :
    List.Pairwise (fun a b => sortKey a ≤ sortKey b) trs :=
  (get_transponders_sound st sat_url net st' trs h).2

/-- C5, witness: a concrete FlySat page whose rows arrive in descending
frequency order; the returned pair is ascending. -/
theorem c5_witness :
    List.Pairwise (fun a b => sortKey a ≤ sortKey b)
      [⟨"10720000", "27500000", "V", "3/4", "DVB-S", "QPSK", none, none, none⟩,
       ⟨"12345000", "27500000", "H", "3/4", "DVB-S", "QPSK", none, none, none⟩] :=
  c5_theorem initState "x"
    (fun _ => FetchResult.response "OK"
      [.startTag "tr" [], .startTag "td" [], .dataEv "u1", .endTag "td",
       .startTag "td" [], .dataEv "12345 H DVB-S/QPSK", .endTag "td",
       .startTag "td" [], .dataEv "27500 3/4", .endTag "td", .endTag "tr",
       .startTag "tr" [], .startTag "td" [], .dataEv "u2", .endTag "td",
       .startTag "td" [], .dataEv "10720 V DVB-S/QPSK", .endTag "td",
       .startTag "td" [], .dataEv "27500 3/4", .endTag "td", .endTag "tr"])
    ⟨false, " ", false, false, false, [], [],
      [["u1", "12345 H DVB-S/QPSK", "27500 3/4"], ["u2", "10720 V DVB-S/QPSK", "27500 3/4"]],
      .FLYSAT⟩
    [⟨"10720000", "27500000", "V", "3/4", "DVB-S", "QPSK", none, none, none⟩,
     ⟨"12345000", "27500000", "H", "3/4", "DVB-S", "QPSK", none, none, none⟩]
    (by rfl)

/-- The tokenizer's start-tag callback fails only on an `<a>` tag whose
attribute list is empty. -/
theorem handle_starttag_none (st : SatellitesParserState) (tag : String)
    (attrs : List (String × String)) (h : handle_starttag st tag attrs = none) :
    tag = "a" ∧ attrs = [] := by
  simp only [handle_starttag] at h
  by_cases ha : tag = "a"
  · rw [if_pos ha] at h
    cases attrs with
    | nil => exact ⟨ha, rfl⟩
    | cons p rest =>
      cases p
      simp at h
  · rw [if_neg ha] at h
    simp at h

/-- A FlySat row-loop step fails only on a full-shape data row reached with
pending stream ids and an empty transponder list: exactly the
`trs.pop()`-on-empty `IndexError`. -/
theorem flySatStep_none (acc : FlySatAcc) (r : List String)
    (h : flySatStep acc r = none) :
    r.length ≠ 1 ∧ 3 ≤ r.length ∧ acc.is_ids ≠ [] ∧ acc.trs = [] := by
  simp only [flySatStep] at h
  by_cases h1 : r.length = 1
  · rw [if_pos h1] at h
    simp at h
  · rw [if_neg h1] at h
    by_cases h3 : r.length < 3
    · rw [if_pos h3] at h
      simp at h
    · rw [if_neg h3] at h
      by_cases hA : (pySplit (r.getD 2 "") " ").length ≠ 2
      · rw [if_pos hA] at h
        simp at h
      · rw [if_neg hA] at h
        by_cases hB : (pySplit (r.getD 1 "") " ").length < 3
        · rw [if_pos hB] at h
          simp at h
        · rw [if_neg hB] at h
          by_cases hC : (pySplit ((pySplit (r.getD 1 "") " ").getD 2 "") "/").length ≠ 2
          · rw [if_pos hC] at h
            simp at h
          · rw [if_neg hC] at h
            by_cases hid : acc.is_ids ≠ []
            · rw [if_pos hid] at h
              refine ⟨h1, by omega, hid, ?_⟩
              cases htr : acc.trs.getLast? with
              | none =>
                cases htrs : acc.trs with
                | nil => rfl
                | cons a l =>
                  rw [htrs] at htr
                  simp at htr
              | some t0 =>
                rw [htr] at h
                simp at h
            · rw [if_neg hid] at h
              simp at h

/-- A fold in the `Option` monad that fails does so at a first failing
element, the fold up to it having succeeded. -/
theorem foldlM_option_none_split {α β : Type} (f : β → α → Option β) :
    ∀ (l : List α) (b : β), List.foldlM f b l = none →
      ∃ l1 a l2 acc, l = l1 ++ a :: l2 ∧ List.foldlM f b l1 = some acc ∧ f acc a = none := by
  intro l
  induction l with
  | nil =>
    intro b h
    simp [List.foldlM_nil] at h
  | cons a l ih =>
    intro b h
    rw [List.foldlM_cons, Option.bind_eq_bind] at h
    cases hf : f b a with
    | none => exact ⟨[], a, l, b, rfl, rfl, hf⟩
    | some b1 =>
      rw [hf, Option.some_bind] at h
      obtain ⟨l1, a', l2, acc, hl, hfold, hfail⟩ := ih b1 h
      refine ⟨a :: l1, a', l2, acc, by rw [hl, List.cons_append], ?_, hfail⟩
      rw [List.foldlM_cons, Option.bind_eq_bind, hf, Option.some_bind]
      exact hfold

/-- A LyngSat adapter row-loop step fails exactly on a width-8 row with
fewer than two non-empty cells: the `data[1]` `IndexError`. -/
theorem lyngSatStep_none_iff (acc : String × List SatTuple) (row : List String) :
    lyngSatStep acc row = none ↔
      row.length = 8 ∧ (row.filter (fun c => c != "")).length < 2 := by
  constructor
  · intro h
    simp only [lyngSatStep] at h
    by_cases h8 : row.length = 8
    · rw [if_pos h8] at h
      by_cases hd : (row.filter (fun c => c != "")).length < 2
      · exact ⟨h8, hd⟩
      · rw [if_neg hd] at h
        simp at h
    · rw [if_neg h8] at h
      by_cases h5 : row.length = 5
      · rw [if_pos h5] at h
        simp at h
      · rw [if_neg h5] at h
        simp at h
  · rintro ⟨h8, hd⟩
    simp only [lyngSatStep]
    rw [if_pos h8, if_pos hd]

/-- The LyngSat adapter fails only when one of its accumulated rows is a
width-8 row with fewer than two non-empty cells. -/
theorem lyngSats_none (rows : List (List String)) (h : lyngSats rows = none) :
    ∃ r ∈ rows, r.length = 8 ∧ (r.filter (fun c => c != "")).length < 2 := by
  simp only [lyngSats] at h
  cases hfold : List.foldlM lyngSatStep ("0", [])
      (rows.filter (fun x => x.length == 5 || x.length == 7 || x.length == 8)) with
  | some v =>
    rw [hfold] at h
    simp at h
  | none =>
    obtain ⟨l1, r, l2, acc, hl, -, hf2⟩ := foldlM_option_none_split lyngSatStep _ _ hfold
    obtain ⟨h8, hd⟩ := (lyngSatStep_none_iff acc r).mp hf2
    have hmem : r ∈ rows.filter (fun x => x.length == 5 || x.length == 7 || x.length == 8) := by
      rw [hl]
      exact List.mem_append_right _ (List.mem_cons_self r l2)
    exact ⟨r, List.mem_of_mem_filter hmem, h8, hd⟩

/-- A valid transponder's frequency parses under Python `int`. -/
theorem valid_freq_isSome (t : Transponder) (hv : is_transponder_valid t = true) :
    (pyInt? t.frequency).isSome := by
  cases hp : pyInt? t.frequency with
  | some n => simp
  | none =>
    exfalso
    rw [is_transponder_valid, hp] at hv
    simp at hv

/-- The Python `sorted` model never fails on a list of validated
transponders: their frequencies all parse. -/
theorem pySortedByFreq_total_of_valid (l : List Transponder)
    (hv : ∀ t ∈ l, is_transponder_valid t = true) :
    ∃ out, pySortedByFreq l = some out := by
  have hall : l.all (fun t => (pyInt? t.frequency).isSome) = true :=
    List.all_eq_true.mpr (fun t ht => valid_freq_isSome t (hv t ht))
  simp only [pySortedByFreq, hall]
  exact ⟨_, rfl⟩

/-- `get_transponders` fails only by a connection error, a tokenizer failure
while feeding the page, or a FlySat extractor failure; in particular the sort
never fails, since everything extracted was validated. -/
theorem get_transponders_none (st : SatellitesParserState) (sat_url : String) (net : Net)
    (h : get_transponders st sat_url net = none) :
    net (transponders_url st.source sat_url) = .connErr ∨
    ∃ reason events, net (transponders_url st.source sat_url) = .response reason events ∧
      reason = "OK" ∧
      (feed (clearRows st) events = none ∨
       ∃ st2, feed (clearRows st) events = some st2 ∧ st2.source = .FLYSAT ∧
         get_transponders_for_fly_sat st2.rows [] = none) := by
  simp only [get_transponders] at h
  cases hnet : net (transponders_url (clearRows st).source sat_url) with
  | connErr => exact Or.inl hnet
  | response reason events =>
    rw [hnet] at h
    simp only at h
    by_cases hr : reason = "OK"
    · rw [if_pos hr] at h
      cases hfeed : feed (clearRows st) events with
      | none => exact Or.inr ⟨reason, events, hnet, hr, Or.inl hfeed⟩
      | some st2 =>
        rw [hfeed] at h
        simp only at h
        cases hsrc : st2.source with
        | FLYSAT =>
          rw [hsrc] at h
          simp only at h
          cases hext : get_transponders_for_fly_sat st2.rows [] with
          | none => exact Or.inr ⟨reason, events, hnet, hr, Or.inr ⟨st2, hfeed, hsrc, hext⟩⟩
          | some l0 =>
            rw [hext] at h
            simp only at h
            obtain ⟨out, hout⟩ := pySortedByFreq_total_of_valid l0
              (get_transponders_for_fly_sat_valid st2.rows [] l0 hext (by simp))
            rw [hout] at h
            simp at h
        | LYNGSAT =>
          rw [hsrc] at h
          simp only at h
          obtain ⟨out, hout⟩ := pySortedByFreq_total_of_valid _
            (get_transponders_for_lyng_sat_valid st2.rows [] (by simp))
          rw [hout] at h
          simp at h
    · rw [if_neg hr] at h
      simp at h

/-- The satellite-list loop fails only by a tokenizer failure on one of its
pages, or by the LyngSat adapter failing on the accumulated rows of the final
state. -/
theorem satListLoop_none (net : Net) :
    ∀ (urls : List String) (st : SatellitesParserState),
      satListLoop net urls st = none →
      (∃ url ∈ urls, ∃ reason events st1, net url = .response reason events ∧
        reason = "OK" ∧ feed st1 events = none) ∨
      (∃ stF : SatellitesParserState, stF.source = SatelliteSource.LYNGSAT ∧ lyngSats stF.rows = none) := by
  intro urls
  induction urls with
  | nil =>
    intro st h
    rw [satListLoop] at h
    by_cases hrows : st.rows ≠ []
    · rw [if_pos hrows] at h
      cases hsrc : st.source with
      | FLYSAT =>
        rw [hsrc] at h
        simp at h
      | LYNGSAT =>
        rw [hsrc] at h
        simp only at h
        cases hls : lyngSats st.rows with
        | some sats =>
          rw [hls] at h
          simp at h
        | none => exact Or.inr ⟨st, hsrc, hls⟩
    · rw [if_neg hrows] at h
      simp at h
  | cons url rest ih =>
    intro st h
    rw [satListLoop] at h
    cases hnet : net url with
    | connErr =>
      rw [hnet] at h
      simp at h
    | response reason events =>
      rw [hnet] at h
      simp only at h
      by_cases hr : reason = "OK"
      · rw [if_pos hr] at h
        cases hfeed : feed st events with
        | none => exact Or.inl ⟨url, by simp, reason, events, st, hnet, hr, hfeed⟩
        | some st1 =>
          rw [hfeed] at h
          simp only at h
          rcases ih st1 h with ⟨u, hu, hP⟩ | hR
          · exact Or.inl ⟨u, by simp [hu], hP⟩
          · exact Or.inr hR
      · rw [if_neg hr] at h
        rcases ih st h with ⟨u, hu, hP⟩ | hR
        · exact Or.inl ⟨u, by simp [hu], hP⟩
        · exact Or.inr hR

/-- C2, amended: no operation of the core raises, *except* (1) the tokenizer
on an `<a>` tag with no attributes, (2) the FlySat extractor when a data row
is processed with pending stream ids and no previously appended transponder
(`trs.pop()` on an empty list), (3) the LyngSat satellite adapter on a
width-8 row with fewer than two non-empty cells (`data[1]`), and (4)
`get_transponders` on a transport-level connection failure.  Stated as exact
exception characterizations, so that away from these conditions every
operation returns normally: a raising `handle_starttag`/`tokStep` call is an
attribute-less `<a>`; a raising FlySat extractor run fails at a data row of
some page decomposition, reached with pending stream ids and an empty
transponder list; a LyngSat adapter step raises *exactly* on a width-8 row
with fewer than two non-empty cells, and a raising LyngSat adapter run
contains such a row; a raising `get_transponders` hit a connection error, a
tokenizer failure, or the FlySat pop (never the sort); a raising
`get_satellites_list` hit a tokenizer failure on one of its pages or the
LyngSat width-8 adapter failure. -/
theorem c2_amended :
    (∀ (st : SatellitesParserState) (tag : String) (attrs : List (String × String)),
        handle_starttag st tag attrs = none → tag = "a" ∧ attrs = []) ∧
    (∀ (st : SatellitesParserState) (e : HEvent),
        tokStep st e = none → e = .startTag "a" []) ∧
    (∀ (acc : FlySatAcc) (r : List String),
        flySatStep acc r = none →
          r.length ≠ 1 ∧ 3 ≤ r.length ∧ acc.is_ids ≠ [] ∧ acc.trs = []) ∧
    (∀ (rows : List (List String)) (trs0 : List Transponder),
        get_transponders_for_fly_sat rows trs0 = none →
        ∃ rows1 r rows2 acc, rows = rows1 ++ r :: rows2 ∧
          List.foldlM flySatStep ⟨trs0, [], []⟩ rows1 = some acc ∧
          flySatStep acc r = none ∧ acc.is_ids ≠ [] ∧ acc.trs = []) ∧
    (∀ (acc : String × List SatTuple) (row : List String),
        lyngSatStep acc row = none ↔
          row.length = 8 ∧ (row.filter (fun c => c != "")).length < 2) ∧
    (∀ rows : List (List String),
        lyngSats rows = none →
        ∃ r ∈ rows, r.length = 8 ∧ (r.filter (fun c => c != "")).length < 2) ∧
    (∀ (st : SatellitesParserState) (sat_url : String) (net : Net),
        get_transponders st sat_url net = none →
          net (transponders_url st.source sat_url) = .connErr ∨
          ∃ reason events,
            net (transponders_url st.source sat_url) = .response reason events ∧
            reason = "OK" ∧
            (feed (clearRows st) events = none ∨
             ∃ st2, feed (clearRows st) events = some st2 ∧ st2.source = .FLYSAT ∧
               get_transponders_for_fly_sat st2.rows [] = none)) ∧
    (∀ (st : SatellitesParserState) (src : SatelliteSource) (net : Net),
        get_satellites_list st src net = none →
          (∃ url ∈ SatelliteSource.get_sources src, ∃ reason events st1,
              net url = .response reason events ∧ reason = "OK" ∧
              feed st1 events = none) ∨
          (∃ stF : SatellitesParserState, stF.source = SatelliteSource.LYNGSAT ∧ lyngSats stF.rows = none)) := by
  refine ⟨handle_starttag_none, ?_, ?_, ?_, lyngSatStep_none_iff, lyngSats_none,
    get_transponders_none, ?_⟩
  · intro st e h
    cases e with
    | startTag t a =>
      obtain ⟨h1, h2⟩ := handle_starttag_none st t a h
      rw [h1, h2]
    | dataEv s => simp [tokStep] at h
    | endTag t => simp [tokStep] at h
  · intro acc r h
    exact flySatStep_none acc r h
  · intro rows trs0 h
    simp only [get_transponders_for_fly_sat] at h
    by_cases hrows : rows = []
    · rw [if_pos hrows] at h
      simp at h
    · rw [if_neg hrows] at h
      cases hfold : List.foldlM flySatStep ⟨trs0, [], []⟩ rows with
      | some accF =>
        rw [hfold] at h
        simp at h
      | none =>
        obtain ⟨l1, r, l2, acc, hl, hf1, hf2⟩ :=
          foldlM_option_none_split flySatStep rows _ hfold
        obtain ⟨-, -, hid, htrs⟩ := flySatStep_none acc r hf2
        exact ⟨l1, r, l2, acc, hl, hf1, hf2, hid, htrs⟩
  · intro st src net h
    exact satListLoop_none net (SatelliteSource.get_sources src) _ h

/-- C2, witness: the amended characterizations applied at concrete raising
inputs — a bare `<a>` start tag, a FlySat page whose stream-marker row
precedes any data row, and a width-8 LyngSat row with no non-empty cell
(exhibiting the `data[1]` exception concretely). -/
theorem c2_witness :
    (("a" : String) = "a" ∧ ([] : List (String × String)) = []) ∧
    (∃ rows1 r rows2 acc,
        ([["Stream 5"], ["u", "11000 V DVB-S2/8PSK", "30000 5/6"]] : List (List String)) =
          rows1 ++ r :: rows2 ∧
        List.foldlM flySatStep ⟨[], [], []⟩ rows1 = some acc ∧
        flySatStep acc r = none ∧ acc.is_ids ≠ [] ∧ acc.trs = []) ∧
    lyngSatStep ("0", []) ["", "", "", "", "", "", "", ""] = none :=
  ⟨c2_amended.1 initState "a" [] rfl,
   c2_amended.2.2.2.1 [["Stream 5"], ["u", "11000 V DVB-S2/8PSK", "30000 5/6"]] [] (by decide),
   (c2_amended.2.2.2.2.1 ("0", []) ["", "", "", "", "", "", "", ""]).mpr
     ⟨by decide, by decide⟩⟩

end DemonEditor
